import Mathlib

/-!
Verification of the PDF file-uploader server (server.js) against its
natural-language specification.  The embedding models JavaScript strings as
lists of UTF-16 code units and translates the server's filename sanitizer,
storage-key generator, PDF magic-byte verifier, and the four route handlers
(upload, list, download, delete) into executable Lean definitions.  External
collaborators (the filesystem, sqlite, multer's stream handling) are modelled
by explicit state and environment records carrying their outcomes.
-/

namespace Uploader

/-- Model of a JavaScript string: a list of UTF-16 code units.  server.js
manipulates filenames only through code-unit-level operations, so this
representation is faithful.  Unicode NFC normalization (line 85) is a
string-to-string map applied before every step modelled here; all theorems
quantify over the post-normalization string, hence hold for every raw input. -/
abbrev JStr := List Nat

/-- JavaScript whitespace: the set matched by the regex class `\s` and removed
by `String.prototype.trim` (tab, LF, VT, FF, CR, space, NBSP, Ogham space,
en/em spaces U+2000-U+200A, LS, PS, NNBSP, MMSP, ideographic space, BOM). -/
def isJsWs (c : Nat) : Bool :=
  c == 9 || c == 10 || c == 11 || c == 12 || c == 13 || c == 32 || c == 160 ||
  c == 5760 || (8192 ≤ c && c ≤ 8202) || c == 8232 || c == 8233 || c == 8239 ||
  c == 8287 || c == 12288 || c == 65279

/-- ASCII control characters stripped by server.js line 86: `[\x00-\x1F\x7F]`. -/
def isCtrlA (c : Nat) : Bool := c ≤ 31 || c == 127

/-- Model of `String.prototype.trim`: drop JS whitespace at both ends. -/
def trimL (l : JStr) : JStr := l.dropWhile isJsWs

/-- Right half of `trim`. -/
def trimR (l : JStr) : JStr := (l.reverse.dropWhile isJsWs).reverse

/-- Full `trim`. -/
def jsTrim (l : JStr) : JStr := trimR (trimL l)

/-- Characters replaced by the sanitize-filename dependency's `illegalRe`
(slash, question mark, angle brackets, backslash, colon, star, pipe, quote). -/
def isIllegal (c : Nat) : Bool :=
  c == 47 || c == 63 || c == 60 || c == 62 || c == 92 || c == 58 ||
  c == 42 || c == 124 || c == 34

/-- Characters replaced by sanitize-filename's `controlRe`: `[\x00-\x1f\x80-\x9f]`. -/
def isCtrlB (c : Nat) : Bool := c ≤ 31 || (128 ≤ c && c ≤ 159)

/-- ASCII lower-casing, as used by case-insensitive regex matching on ASCII
patterns in non-unicode mode. -/
def asciiLower (c : Nat) : Nat := if 65 ≤ c ∧ c ≤ 90 then c + 32 else c

/-- Decimal digit code unit test. -/
def isDigitCU (c : Nat) : Bool := 48 ≤ c && c ≤ 57

/-- Match of sanitize-filename's `windowsReservedRe` first alternative:
`^(con|prn|aux|nul)(\..*)?$` on an already lower-cased string. -/
def winName3 (l : JStr) : Bool :=
  match l with
  | c1 :: c2 :: c3 :: rest =>
    ([c1, c2, c3] == ([99, 111, 110] : JStr) ||
     [c1, c2, c3] == ([112, 114, 110] : JStr) ||
     [c1, c2, c3] == ([97, 117, 120] : JStr) ||
     [c1, c2, c3] == ([110, 117, 108] : JStr)) &&
    (rest == [] || rest.head? == some 46)
  | _ => false

/-- Match of `^(com[0-9]|lpt[0-9])(\..*)?$` on an already lower-cased string. -/
def winName4 (l : JStr) : Bool :=
  match l with
  | c1 :: c2 :: c3 :: d :: rest =>
    ([c1, c2, c3] == ([99, 111, 109] : JStr) ||
     [c1, c2, c3] == ([108, 112, 116] : JStr)) && isDigitCU d &&
    (rest == [] || rest.head? == some 46)
  | _ => false

/-- Case-insensitive match of sanitize-filename's `windowsReservedRe`. -/
def isWinReserved (l : JStr) : Bool :=
  winName3 (l.map asciiLower) || winName4 (l.map asciiLower)

/-- Dot-or-space test for sanitize-filename's `windowsTrailingRe` `[\. ]+$`. -/
def isDotSpace (c : Nat) : Bool := c == 46 || c == 32

/-- Strip a trailing run of dots and spaces (`windowsTrailingRe`). -/
def stripTrailingDotSpace (l : JStr) : JStr := (l.reverse.dropWhile isDotSpace).reverse

/-- UTF-8 byte length of one code unit as counted by sanitize-filename's
255-byte truncation (surrogate units counted at three bytes). -/
def cuBytes (c : Nat) : Nat := if c < 128 then 1 else if c < 2048 then 2 else 3

/-- Truncation of a string to a prefix of at most the given UTF-8 byte budget;
the first unit that does not fit ends the string. -/
def truncBytes : Nat → JStr → JStr
  | _, [] => []
  | budget, c :: rest =>
    if cuBytes c ≤ budget then c :: truncBytes (budget - cuBytes c) rest else []

/-- Test for sanitize-filename's `reservedRe` `^\.+$`: nonempty and all dots. -/
def allDots (l : JStr) : Bool := !(l == []) && l.all (fun c => c == 46)

/-- Model of the sanitize-filename dependency (used at server.js line 89):
replace illegal characters, control characters, a name consisting solely of
dots, a reserved Windows device name, and trailing dots and spaces by the empty
replacement, then truncate to 255 UTF-8 bytes. -/
def sanitizeLib (l : JStr) : JStr :=
  let s1 := l.filter (fun c => !isIllegal c)
  let s2 := s1.filter (fun c => !isCtrlB c)
  let s3 := if allDots s2 then [] else s2
  let s4 := if isWinReserved s3 then [] else s3
  truncBytes 255 (stripTrailingDotSpace s4)

/-- Worker for whitespace collapsing: the Bool records whether the previous
unit was whitespace (in which case further whitespace emits nothing). -/
def collapseGo : Bool → JStr → JStr
  | _, [] => []
  | inWs, c :: rest =>
    if isJsWs c then
      (if inWs then collapseGo true rest else 32 :: collapseGo true rest)
    else c :: collapseGo false rest

/-- Model of `.replace(/\s+/g, ' ')` (server.js line 89): every maximal run of
whitespace becomes a single space. -/
def collapseWs (l : JStr) : JStr := collapseGo false l

/-- Code units of the fallback base name `file` (server.js line 82). -/
def fileLit : JStr := [102, 105, 108, 101]

/-- Code units of the fallback full name `file.pdf` (server.js line 92). -/
def filePdfLit : JStr := [102, 105, 108, 101, 46, 112, 100, 102]

/-- Code units of the extension `.pdf` appended at server.js line 95. -/
def dotPdfLit : JStr := [46, 112, 100, 102]

/-- Lines 82-86 of server.js: substitute `file` for a missing or empty
original name, then strip ASCII control characters and trim.  (The NFC
normalization between those steps is the identity on the code-unit list the
theorems quantify over; see `JStr`.) -/
def normOrig (originalname : Option JStr) : JStr :=
  let o := match originalname with
           | none => fileLit
           | some s => if s = [] then fileLit else s
  jsTrim (o.filter (fun c => !isCtrlA c))

/-- Test of `/\.pdf$/i` (server.js line 95): the last four code units are a
dot followed by `pdf` in either case. -/
def endsWithPdfCI (l : JStr) : Bool :=
  match l.reverse with
  | f :: d :: p :: dot :: _ =>
    (f == 102 || f == 70) && (d == 100 || d == 68) &&
    (p == 112 || p == 80) && dot == 46
  | _ => false

/-- Name-length bound of server.js line 13. -/
def MAX_NAME_LEN : Nat := 200

/-- Leading characters stripped at server.js line 98: `^[.\s]+`. -/
def isDotWs (c : Nat) : Bool := c == 46 || isJsWs c

/-- Lines 88-98 of server.js: the complete filename sanitizer producing the
safe on-disk base name from the client-declared original name. -/
def safeNameOf (originalname : Option JStr) : JStr :=
  let original := normOrig originalname
  let s1 := (jsTrim (collapseWs (sanitizeLib original))).take MAX_NAME_LEN
  let s2 := if s1 = [] then filePdfLit else s1
  let s3 := if endsWithPdfCI s2 then s2 else s2 ++ dotPdfLit
  s3.dropWhile isDotWs

/-- Salt space of `Math.floor(Math.random() * 1e9)` (server.js line 101): one
thousand million equiprobable values. -/
def SALT_SPACE : Nat := 10 ^ 9

/-- Hexadecimal digit rendering (`Number.prototype.toString(16)`, lower case). -/
def digitCU (d : Nat) : Nat := if d < 10 then 48 + d else 87 + d

/-- Fuelled decimal rendering worker. -/
def decimAux : Nat → Nat → JStr
  | 0, _ => []
  | fuel + 1, n => if n < 10 then [48 + n] else decimAux fuel (n / 10) ++ [48 + n % 10]

/-- Decimal rendering of a natural number, as in the template literal
interpolation of `Date.now()` (server.js line 101). -/
def decimStr (n : Nat) : JStr := decimAux (n + 1) n

/-- Fuelled hexadecimal rendering worker. -/
def hexAux : Nat → Nat → JStr
  | 0, _ => []
  | fuel + 1, n => if n < 16 then [digitCU n] else hexAux fuel (n / 16) ++ [digitCU (n % 16)]

/-- Hexadecimal rendering of a natural number (`.toString(16)`). -/
def hexStr (n : Nat) : JStr := hexAux (n + 1) n

/-- Code unit of the hyphen separating the storage-key parts. -/
def hyphen : Nat := 45

/-- Line 101-102 of server.js: the stored filename is
timestamp, hyphen, hexadecimal salt, hyphen, sanitized name. -/
def storedNameOf (now rand : Nat) (safe : JStr) : JStr :=
  decimStr now ++ [hyphen] ++ hexStr rand ++ [hyphen] ++ safe

/-- The complete `storage.filename` callback output (server.js lines 81-107):
the stored on-disk name for a given client original name, clock value and
random salt. -/
def storageFilename (originalname : Option JStr) (now rand : Nat) : JStr :=
  storedNameOf now rand (safeNameOf originalname)

/-- One row of the `documents` table (server.js lines 39-46). -/
structure DocRow where
  id : Nat
  filename : JStr
  original_filename : Option JStr
  filepath : JStr
  filesize : Nat
  created_at : Nat
deriving DecidableEq, Repr

/-- Combined state of the two stores: the documents table rows in insertion
order, the uploads directory as path-keyed blobs, and the next autoincrement
id the record store will assign. -/
structure Store where
  docs : List DocRow
  blobs : List (JStr × List Nat)
  nextId : Nat
deriving DecidableEq, Repr

/-- Lookup of the blob stored at a path. -/
def findBlob (blobs : List (JStr × List Nat)) (k : JStr) : Option (List Nat) :=
  (blobs.find? (fun b => b.1 == k)).map (fun b => b.2)

/-- Removal of the blob stored at a path. -/
def removeBlob (blobs : List (JStr × List Nat)) (k : JStr) : List (JStr × List Nat) :=
  blobs.filter (fun b => !(b.1 == k))

/-- Best-effort `fs.unlinkSync` wrapped in try/catch: on success the blob at
the path is removed; on failure the state is unchanged and the error is only
logged, never rethrown. -/
def tryUnlink (ok : Bool) (st : Store) (k : JStr) : Store :=
  if ok then { st with blobs := removeBlob st.blobs k } else st

/-- Model of `fs.existsSync` on a blob path. -/
def blobAt (st : Store) (k : JStr) : Bool := (findBlob st.blobs k).isSome

/-- Code units of the magic header: percent sign, P, D, F. -/
def pdfMagic : JStr := [37, 80, 68, 70]

/-- Model of `isRealPDF` (server.js lines 63-74).  The argument is the result
of reading the first four bytes of the file, `none` when any filesystem call
throws (the catch branch returns false).  `Buffer.alloc(4)` zero-fills, so a
file shorter than four bytes compares a zero-padded buffer against the header
and fails, the header bytes being nonzero. -/
def isRealPDF (readRes : Option (List Nat)) : Bool :=
  match readRes with
  | none => false
  | some bytes =>
    (bytes.take 4 ++ List.replicate (4 - (bytes.take 4).length) 0) == pdfMagic

/-- Code units of the mimetype `application/pdf` (server.js line 115). -/
def pdfMime : JStr :=
  [97, 112, 112, 108, 105, 99, 97, 116, 105, 111, 110, 47, 112, 100, 102]

/-- Code units of the directory part `uploads/` that `path.join` puts in
front of the stored name (server.js line 14). -/
def uploadsDirLit : JStr := [117, 112, 108, 111, 97, 100, 115, 47]

/-- Code units of the sqlite message fragment `no such column:
original_filename` tested at server.js line 156. -/
def noColumnMsg : JStr :=
  [110, 111, 32, 115, 117, 99, 104, 32, 99, 111, 108, 117, 109, 110, 58, 32,
   111, 114, 105, 103, 105, 110, 97, 108, 95, 102, 105, 108, 101, 110, 97,
   109, 101]

/-- Substring test modelling `String.prototype.includes`. -/
def containsSeg (needle hay : JStr) : Bool :=
  (List.range (hay.length + 1)).any (fun i => ((hay.drop i).take needle.length) == needle)

/-- Size limit of server.js line 122: ten mebibytes. -/
def MAX_FILE_SIZE : Nat := 10 * 1024 * 1024

/-- Outcome of one `db.run` INSERT statement as supplied by the record-store
environment: success, or failure with the engine's message. -/
inductive InsOut where
  | ok : InsOut
  | err : JStr → InsOut
deriving DecidableEq, Repr

/-- Audit marker recording which INSERT statements a request issued. -/
inductive InsAttempt where
  | full : InsAttempt
  | reduced : InsAttempt
deriving DecidableEq, Repr

/-- Environment of one upload request: the clock and random salt sampled in
`storage.filename`, whether the verification read and the unlink calls
succeed, and the record store's response to the first and second INSERT. -/
structure UpEnv where
  now : Nat
  rand : Nat
  readOk : Bool
  unlinkOk : Bool
  ins1 : InsOut
  ins2 : InsOut
deriving DecidableEq, Repr

/-- One inbound multipart file as multer presents it. -/
structure UpFile where
  originalname : Option JStr
  mimetype : JStr
  content : List Nat
deriving DecidableEq, Repr

/-- Response of the upload route, after the error middleware (server.js lines
276-287) has mapped any multer error. -/
inductive UpResp where
  | noFile : UpResp
  | badMime : UpResp
  | tooLarge : UpResp
  | notAPdf : UpResp
  | created : Nat → Bool → UpResp
  | dbError : JStr → UpResp
deriving DecidableEq, Repr

/-- HTTP status of each upload response.  The size-cap violation is a
MulterError with code LIMIT_FILE_SIZE, mapped to 400 by the middleware; the
mimetype rejection is a plain Error, mapped to 500 by the final branch. -/
def UpResp.status : UpResp → Nat
  | .noFile => 400
  | .badMime => 500
  | .tooLarge => 400
  | .notAPdf => 400
  | .created _ _ => 201
  | .dbError _ => 500

/-- Complete outcome of one upload request. -/
structure UpOut where
  resp : UpResp
  store : Store
  attempts : List InsAttempt
deriving DecidableEq, Repr

/-- Model of one POST /api/documents/upload request end to end: multer's
mimetype filter (server.js lines 113-120) and size cap (line 122), the disk
write under the generated stored name, then the handler body (lines 129-196):
magic-byte verification with immediate cleanup on failure, the INSERT with the
schema-drift retry on the missing-column message, and best-effort cleanup of
the blob on any other insert error. -/
def uploadRequest (env : UpEnv) (file : Option UpFile) (st : Store) : UpOut :=
  match file with
  | none => ⟨.noFile, st, []⟩
  | some f =>
    if f.mimetype = pdfMime then
      if f.content.length ≤ MAX_FILE_SIZE then
        let storedName := storageFilename f.originalname env.now env.rand
        let filepath := uploadsDirLit ++ storedName
        let savedOriginal := normOrig f.originalname
        let st1 : Store := { st with blobs := (filepath, f.content) :: st.blobs }
        let originalFilename := if savedOriginal = [] then storedName else savedOriginal
        let readRes := if env.readOk then findBlob st1.blobs filepath else none
        if isRealPDF readRes then
          match env.ins1 with
          | .ok =>
            let row : DocRow :=
              ⟨st1.nextId, storedName, some originalFilename, filepath,
               f.content.length, env.now⟩
            ⟨.created st1.nextId true,
             { st1 with docs := st1.docs ++ [row], nextId := st1.nextId + 1 },
             [.full]⟩
          | .err m =>
            if containsSeg noColumnMsg m then
              match env.ins2 with
              | .ok =>
                let row : DocRow :=
                  ⟨st1.nextId, storedName, none, filepath, f.content.length, env.now⟩
                ⟨.created st1.nextId false,
                 { st1 with docs := st1.docs ++ [row], nextId := st1.nextId + 1 },
                 [.full, .reduced]⟩
              | .err m2 =>
                ⟨.dbError m2, tryUnlink env.unlinkOk st1 filepath, [.full, .reduced]⟩
            else ⟨.dbError m, tryUnlink env.unlinkOk st1 filepath, [.full]⟩
        else ⟨.notAPdf, tryUnlink env.unlinkOk st1 filepath, []⟩
      else ⟨.tooLarge, st, []⟩
    else ⟨.badMime, st, []⟩

/-- Model of `db.get('SELECT * FROM documents WHERE id = ?')`: the first row
with the given id. -/
def findDoc (docs : List DocRow) (id : Nat) : Option DocRow :=
  docs.find? (fun d => d.id == id)

/-- Environment of one DELETE request: outcome of the row lookup and the row
deletion statements, and whether `fs.unlinkSync` succeeds. -/
structure DelEnv where
  getErr : Option JStr
  unlinkOk : Bool
  delErr : Option JStr
deriving DecidableEq, Repr

/-- Response of the delete route. -/
inductive DelResp where
  | dbError : JStr → DelResp
  | notFound : DelResp
  | deleted : DelResp
deriving DecidableEq, Repr

/-- HTTP status of each delete response. -/
def DelResp.status : DelResp → Nat
  | .dbError _ => 500
  | .notFound => 404
  | .deleted => 200

/-- Model of the DELETE /api/documents/:id handler (server.js lines 242-273):
look the row up, unlink the blob only if it exists (try/catch around the
unlink, failures logged), then delete the row; only a row-deletion error
produces a 500 once the lookup has succeeded. -/
def deleteRequest (env : DelEnv) (id : Nat) (st : Store) : DelResp × Store :=
  match env.getErr with
  | some m => (.dbError m, st)
  | none =>
    match findDoc st.docs id with
    | none => (.notFound, st)
    | some row =>
      let st1 := if blobAt st row.filepath then tryUnlink env.unlinkOk st row.filepath else st
      match env.delErr with
      | some m2 => (.dbError m2, st1)
      | none => (.deleted, { st1 with docs := st1.docs.filter (fun d => !(d.id == id)) })

/-- Environment of one GET-by-id request: outcome of the row lookup. -/
structure GetEnv where
  getErr : Option JStr
deriving DecidableEq, Repr

/-- Response of the download route. -/
inductive GetResp where
  | dbError : JStr → GetResp
  | notFound : GetResp
  | fileMissing : GetResp
  | downloadFile : JStr → JStr → GetResp
deriving DecidableEq, Repr

/-- HTTP status of each download response. -/
def GetResp.status : GetResp → Nat
  | .dbError _ => 500
  | .notFound => 404
  | .fileMissing => 404
  | .downloadFile _ _ => 200

/-- The `row.original_filename || row.filename` fallback of server.js line
228: a null or empty display name falls back to the stored filename. -/
def downloadName (row : DocRow) : JStr :=
  match row.original_filename with
  | none => row.filename
  | some s => if s = [] then row.filename else s

/-- Model of the GET /api/documents/:id handler (server.js lines 209-239);
the state component records that the handler never mutates either store. -/
def downloadRequest (env : GetEnv) (id : Nat) (st : Store) : GetResp × Store :=
  match env.getErr with
  | some m => (.dbError m, st)
  | none =>
    match findDoc st.docs id with
    | none => (.notFound, st)
    | some row =>
      if blobAt st row.filepath then (.downloadFile row.filepath (downloadName row), st)
      else (.fileMissing, st)

/-- Stable insertion of a row into a list already sorted by `created_at`
descending: the row goes before the first row not newer than it. -/
def insDesc (x : DocRow) : List DocRow → List DocRow
  | [] => [x]
  | y :: ys => if y.created_at ≤ x.created_at then x :: y :: ys else y :: insDesc x ys

/-- Model of `SELECT * FROM documents ORDER BY created_at DESC` (server.js
line 200): a stable sort of the table scan on `created_at` descending.  The
statement names no secondary sort key, so the relative order of rows with
equal timestamps is whatever the engine's sorter yields; a stable sort over
the scan preserves insertion order among ties. -/
def sortByCreatedDesc : List DocRow → List DocRow
  | [] => []
  | x :: xs => insDesc x (sortByCreatedDesc xs)

/-- Model of the GET /api/documents handler (server.js lines 199-206). -/
def queryDocs (st : Store) : List DocRow := sortByCreatedDesc st.docs

/-! ### Lemmas about the sanitizer pipeline -/

/-- Membership is preserved through `trimR`. -/
theorem mem_trimR {l : JStr} {c : Nat} (h : c ∈ trimR l) : c ∈ l := by
  unfold trimR at h
  rw [List.mem_reverse] at h
  exact List.mem_reverse.mp ((List.dropWhile_sublist _).subset h)

/-- Membership is preserved through `jsTrim`. -/
theorem mem_jsTrim {l : JStr} {c : Nat} (h : c ∈ jsTrim l) : c ∈ l := by
  unfold jsTrim trimL at h
  exact (List.dropWhile_sublist _).subset (mem_trimR h)

/-- Membership is preserved through byte truncation. -/
theorem mem_truncBytes {c : Nat} : ∀ {b : Nat} {l : JStr}, c ∈ truncBytes b l → c ∈ l := by
  intro b l
  induction l generalizing b with
  | nil => intro h; simp [truncBytes] at h
  | cons x xs ih =>
    intro h
    simp only [truncBytes] at h
    split at h
    · rcases List.mem_cons.mp h with rfl | h2
      · exact List.mem_cons_self _ _
      · exact List.mem_cons_of_mem _ (ih h2)
    · exact absurd h (List.not_mem_nil c)

/-- Membership is preserved through trailing-dot-space stripping. -/
theorem mem_stripTrailing {l : JStr} {c : Nat} (h : c ∈ stripTrailingDotSpace l) : c ∈ l := by
  unfold stripTrailingDotSpace at h
  rw [List.mem_reverse] at h
  exact List.mem_reverse.mp ((List.dropWhile_sublist _).subset h)

/-- Membership is preserved through the sanitize-filename model. -/
theorem mem_sanitizeLib {l : JStr} {c : Nat} (h : c ∈ sanitizeLib l) : c ∈ l := by
  simp only [sanitizeLib] at h
  have h1 := mem_stripTrailing (mem_truncBytes h)
  split at h1
  · exact absurd h1 (List.not_mem_nil c)
  · split at h1
    · exact absurd h1 (List.not_mem_nil c)
    · exact List.mem_of_mem_filter (List.mem_of_mem_filter h1)

/-- Every unit of the collapse output is a space or a unit of the input. -/
theorem mem_collapseGo {c : Nat} : ∀ {b : Bool} {l : JStr}, c ∈ collapseGo b l → c = 32 ∨ c ∈ l := by
  intro b l
  induction l generalizing b with
  | nil => intro h; simp [collapseGo] at h
  | cons x xs ih =>
    intro h
    simp only [collapseGo] at h
    split at h
    · split at h
      · rcases ih h with rfl | h2
        · exact .inl rfl
        · exact .inr (List.mem_cons_of_mem _ h2)
      · rcases List.mem_cons.mp h with rfl | h2
        · exact .inl rfl
        · rcases ih h2 with rfl | h3
          · exact .inl rfl
          · exact .inr (List.mem_cons_of_mem _ h3)
    · rcases List.mem_cons.mp h with rfl | h2
      · exact .inr (List.mem_cons_self _ _)
      · rcases ih h2 with rfl | h3
        · exact .inl rfl
        · exact .inr (List.mem_cons_of_mem _ h3)

/-- Every unit of `collapseWs l` is a space or a unit of `l`. -/
theorem mem_collapseWs {c : Nat} {l : JStr} (h : c ∈ collapseWs l) : c = 32 ∨ c ∈ l :=
  mem_collapseGo h

/-- Every unit surviving `normOrig` is not an ASCII control character. -/
theorem mem_normOrig {o : Option JStr} {c : Nat} (h : c ∈ normOrig o) : isCtrlA c = false := by
  unfold normOrig at h
  have h1 := mem_jsTrim h
  rw [List.mem_filter] at h1
  simpa using h1.2

/-- No unit of the length-limited sanitized base name is a control character. -/
theorem base_noCtrl (o : Option JStr) :
    ∀ c ∈ (jsTrim (collapseWs (sanitizeLib (normOrig o)))).take MAX_NAME_LEN,
      isCtrlA c = false := by
  intro c hc
  have h1 := List.take_subset _ _ hc
  rcases mem_collapseWs (mem_jsTrim h1) with rfl | h3
  · decide
  · exact mem_normOrig (mem_sanitizeLib h3)

/-- Dropping a satisfying run across an append when the first part is consumed
entirely. -/
theorem dropWhile_append_all {p : Nat → Bool} {a b : JStr} (h : ∀ x ∈ a, p x = true) :
    (a ++ b).dropWhile p = b.dropWhile p := by
  rw [List.dropWhile_append,
      if_pos (by rw [List.isEmpty_iff, List.dropWhile_eq_nil_iff]; exact h)]

/-- Dropping a satisfying run across an append when it stops inside the first
part. -/
theorem dropWhile_append_stop {p : Nat → Bool} {a b : JStr} (h : ¬ a.dropWhile p = []) :
    (a ++ b).dropWhile p = a.dropWhile p ++ b := by
  rw [List.dropWhile_append, if_neg (by rw [List.isEmpty_iff]; exact h)]

/-- The head surviving a `dropWhile` falsifies the predicate. -/
theorem dropWhile_head_false {p : Nat → Bool} :
    ∀ {l : JStr} {c : Nat} {r : JStr}, l.dropWhile p = c :: r → p c = false := by
  intro l
  induction l with
  | nil => intro c r h; simp [List.dropWhile] at h
  | cons x xs ih =>
    intro c r h
    by_cases hx : p x = true
    · rw [List.dropWhile_cons_of_pos hx] at h
      exact ih h
    · rw [List.dropWhile_cons_of_neg hx] at h
      injection h with h1 h2
      subst h1
      rw [Bool.eq_false_iff]
      exact hx

/-- Decomposition of a string passing the case-insensitive `.pdf` suffix test. -/
theorem endsWithPdfCI_decomp {u : JStr} (h : endsWithPdfCI u = true) :
    ∃ v p d fc, u = v ++ [46, p, d, fc] ∧ (p = 112 ∨ p = 80) ∧
      (d = 100 ∨ d = 68) ∧ (fc = 102 ∨ fc = 70) := by
  unfold endsWithPdfCI at h
  rcases e : u.reverse with _ | ⟨fc, tl1⟩
  · rw [e] at h; simp at h
  rcases tl1 with _ | ⟨d, tl2⟩
  · rw [e] at h; simp at h
  rcases tl2 with _ | ⟨p, tl3⟩
  · rw [e] at h; simp at h
  rcases tl3 with _ | ⟨dot, rest⟩
  · rw [e] at h; simp at h
  rw [e] at h
  simp only [Bool.and_eq_true, Bool.or_eq_true, beq_iff_eq] at h
  obtain ⟨⟨⟨hf, hd⟩, hp⟩, hdot⟩ := h
  have hu : u = rest.reverse ++ [dot, p, d, fc] := by
    have h2 := congrArg List.reverse e
    rw [List.reverse_reverse] at h2
    rw [h2]
    simp
  subst hdot
  exact ⟨rest.reverse, p, d, fc, hu, hp, hd, hf⟩

/-- Appending a dot and the three letters makes the suffix test succeed. -/
theorem endsWithPdfCI_append (w : JStr) {p d fc : Nat}
    (hp : p = 112 ∨ p = 80) (hd : d = 100 ∨ d = 68) (hf : fc = 102 ∨ fc = 70) :
    endsWithPdfCI (w ++ [46, p, d, fc]) = true := by
  unfold endsWithPdfCI
  have e : (w ++ [46, p, d, fc]).reverse = fc :: d :: p :: 46 :: w.reverse := by simp
  rw [e]
  rcases hp with rfl | rfl <;> rcases hd with rfl | rfl <;> rcases hf with rfl | rfl <;> rfl

/-- First code unit exists and is neither a dot nor whitespace. -/
def headNotDotWs (l : JStr) : Bool :=
  match l with
  | [] => false
  | c :: _ => !isDotWs c

/-- The output shape the specification claims: nonempty, not starting with a
dot or whitespace, ending with `.pdf` up to case (the meaning of the regex in
the claim, no output containing line terminators). -/
def matchesSpecRegex (l : JStr) : Bool := headNotDotWs l && endsWithPdfCI l

/-- Exactly the three letters `pdf` up to case, with no preceding dot. -/
def barePdfCI (l : JStr) : Bool :=
  match l with
  | [p, d, fc] =>
    (p == 112 || p == 80) && (d == 100 || d == 68) && (fc == 102 || fc == 70)
  | _ => false

/-- No ASCII control characters anywhere in the string. -/
def noCtrlChars (l : JStr) : Bool := l.all (fun c => !isCtrlA c)

/-- Amended sanitizer guarantee: nonempty, head is no dot or whitespace,
length at most 204, control-free, and the string either matches the claimed
regex shape or is the bare three-letter `pdf` (up to case) left over when the
leading-dot strip of server.js line 98 consumes the extension's dot. -/
def safeNameOK (l : JStr) : Bool :=
  headNotDotWs l && decide (l.length ≤ 204) && noCtrlChars l &&
  (matchesSpecRegex l || barePdfCI l)

/-- Unfolding of `safeNameOf` used to drive the case analysis. -/
theorem safeNameOf_eq (o : Option JStr) :
    safeNameOf o =
      (let s1 := (jsTrim (collapseWs (sanitizeLib (normOrig o)))).take MAX_NAME_LEN
       let s2 := if s1 = [] then filePdfLit else s1
       (if endsWithPdfCI s2 then s2 else s2 ++ dotPdfLit).dropWhile isDotWs) := rfl

/-- The amended guarantee holds for any dot-pdf-suffixed string once the
leading strip is applied, given bounds on its length and characters. -/
theorem safeNameOK_of_decomp {v : JStr} {p d fc : Nat}
    (hp : p = 112 ∨ p = 80) (hd : d = 100 ∨ d = 68) (hf : fc = 102 ∨ fc = 70)
    (hlen : v.length + 4 ≤ 204) (hch : ∀ c ∈ v ++ [46, p, d, fc], isCtrlA c = false) :
    safeNameOK ((v ++ [46, p, d, fc]).dropWhile isDotWs) = true := by
  have hpn : ¬ isDotWs p = true := by rcases hp with rfl | rfl <;> decide
  by_cases hall : ∀ x ∈ v, isDotWs x = true
  · have hide : (v ++ [46, p, d, fc]).dropWhile isDotWs = [p, d, fc] := by
      rw [dropWhile_append_all hall,
          List.dropWhile_cons_of_pos (by decide : isDotWs 46 = true),
          List.dropWhile_cons_of_neg hpn]
    rw [hide]
    rcases hp with rfl | rfl <;> rcases hd with rfl | rfl <;> rcases hf with rfl | rfl <;> decide
  · have hne : ¬ v.dropWhile isDotWs = [] := by
      rw [List.dropWhile_eq_nil_iff]
      exact hall
    rw [dropWhile_append_stop hne]
    rcases e : v.dropWhile isDotWs with _ | ⟨c, r⟩
    · exact absurd e hne
    have hcfalse : isDotWs c = false := dropWhile_head_false e
    have hsub : ∀ x ∈ (c :: r) ++ [46, p, d, fc], isCtrlA x = false := by
      intro x hx
      rcases List.mem_append.mp hx with hx1 | hx2
      · exact hch x (List.mem_append.mpr
          (.inl ((List.dropWhile_sublist _).subset (e ▸ hx1))))
      · exact hch x (List.mem_append.mpr (.inr hx2))
    have hlen2 : ((c :: r) ++ [46, p, d, fc]).length ≤ 204 := by
      have h1 : (v.dropWhile isDotWs).length ≤ v.length := (List.dropWhile_sublist _).length_le
      rw [e] at h1
      simp only [List.length_append, List.length_cons, List.length_nil] at h1 ⊢
      omega
    rw [e] at *
    simp only [safeNameOK, matchesSpecRegex, Bool.and_eq_true, Bool.or_eq_true,
               decide_eq_true_eq, noCtrlChars, List.all_eq_true, Bool.not_eq_true']
    refine ⟨⟨⟨?_, hlen2⟩, hsub⟩, .inl ⟨?_, endsWithPdfCI_append _ hp hd hf⟩⟩
    · rw [List.cons_append]
      simp [headNotDotWs, hcfalse]
    · rw [List.cons_append]
      simp [headNotDotWs, hcfalse]

/-- Every sanitizer output decomposes as a prefix plus a dot-pdf suffix (up to
case) fed to the leading strip, with bounded length and no control characters. -/
theorem safeName_decomp (o : Option JStr) :
    ∃ v p d fc, (p = 112 ∨ p = 80) ∧ (d = 100 ∨ d = 68) ∧ (fc = 102 ∨ fc = 70) ∧
      safeNameOf o = (v ++ [46, p, d, fc]).dropWhile isDotWs ∧
      v.length + 4 ≤ 204 ∧ (∀ c ∈ v ++ [46, p, d, fc], isCtrlA c = false) := by
  have hch1 := base_noCtrl o
  have hlen1 : ((jsTrim (collapseWs (sanitizeLib (normOrig o)))).take MAX_NAME_LEN).length ≤ 200 := by
    rw [List.length_take]
    exact inf_le_left
  rw [safeNameOf_eq o]
  dsimp only
  set s1 := (jsTrim (collapseWs (sanitizeLib (normOrig o)))).take MAX_NAME_LEN with hs1
  by_cases hb : s1 = []
  · rw [if_pos hb, if_pos (by decide : endsWithPdfCI filePdfLit = true)]
    exact ⟨[102, 105, 108, 101], 112, 100, 102, .inl rfl, .inl rfl, .inl rfl, rfl,
           by decide, by decide⟩
  · rw [if_neg hb]
    by_cases he : endsWithPdfCI s1 = true
    · obtain ⟨v, p, d, fc, hu, hp, hd, hf⟩ := endsWithPdfCI_decomp he
      rw [if_pos he, hu]
      refine ⟨v, p, d, fc, hp, hd, hf, rfl, ?_, ?_⟩
      · have h2 := hlen1
        rw [hu] at h2
        simp only [List.length_append, List.length_cons, List.length_nil] at h2 ⊢
        omega
      · intro c hc
        exact hch1 c (hu ▸ hc)
    · rw [if_neg he]
      refine ⟨s1, 112, 100, 102, .inl rfl, .inl rfl, .inl rfl, rfl, ?_, ?_⟩
      · omega
      · intro c hc
        rcases List.mem_append.mp hc with h1 | h2
        · exact hch1 c h1
        · have : c = 46 ∨ c = 112 ∨ c = 100 ∨ c = 102 := by simpa using h2
          rcases this with rfl | rfl | rfl | rfl <;> decide

/-! ### Claim C2 -/

/-- C2 (amended).  For every input (including a missing original name) the
Filename Sanitizer's output is nonempty, does not begin with a dot or
whitespace, has length at most 204, contains no ASCII control characters, and
either matches the claimed regex shape (case-insensitive `.pdf` suffix) or is
exactly the bare three letters `pdf` up to case — the latter occurs exactly
when the leading-dot strip of server.js line 98, which runs after the
extension is ensured at line 95, consumes the dot of the extension itself. -/
theorem C2_safeName_guarantees (o : Option JStr) : safeNameOK (safeNameOf o) = true := by
  obtain ⟨v, p, d, fc, hp, hd, hf, heq, hlen, hch⟩ := safeName_decomp o
  rw [heq]
  exact safeNameOK_of_decomp hp hd hf hlen hch

/-- C2 counterexample: the input `.pdf` (units 46,112,100,102) sanitizes to
the bare `pdf` (units 112,100,102), which does not end with `.pdf`: the
claimed regex shape fails on the sanitizer's output. -/
theorem C2_cex_dot_pdf_input :
    safeNameOf (some [46, 112, 100, 102]) = [112, 100, 102] ∧
    matchesSpecRegex (safeNameOf (some [46, 112, 100, 102])) = false :=
  ⟨by decide, by decide⟩

/-! ### Claim C4 -/

/-- Every unit of the fuelled decimal rendering is a decimal digit. -/
theorem decimAux_digits : ∀ (fuel n : Nat), ∀ c ∈ decimAux fuel n, 48 ≤ c ∧ c ≤ 57 := by
  intro fuel
  induction fuel with
  | zero => intro n c h; simp [decimAux] at h
  | succ k ih =>
    intro n c h
    simp only [decimAux] at h
    split at h
    · rename_i hn
      simp only [List.mem_singleton] at h
      omega
    · rcases List.mem_append.mp h with h1 | h2
      · exact ih _ c h1
      · simp only [List.mem_singleton] at h2
        have hlt : n % 10 < 10 := Nat.mod_lt _ (by norm_num)
        omega

/-- A hexadecimal digit unit is a decimal digit or a lower-case letter a-f. -/
theorem digitCU_hex {n : Nat} (h : n < 16) :
    (48 ≤ digitCU n ∧ digitCU n ≤ 57) ∨ (97 ≤ digitCU n ∧ digitCU n ≤ 102) := by
  unfold digitCU
  split
  · rename_i h2
    exact .inl (by omega)
  · rename_i h2
    exact .inr (by omega)

/-- Every unit of the fuelled hexadecimal rendering is a hex digit. -/
theorem hexAux_digits : ∀ (fuel n : Nat), ∀ c ∈ hexAux fuel n,
    (48 ≤ c ∧ c ≤ 57) ∨ (97 ≤ c ∧ c ≤ 102) := by
  intro fuel
  induction fuel with
  | zero => intro n c h; simp [hexAux] at h
  | succ k ih =>
    intro n c h
    simp only [hexAux] at h
    split at h
    · rename_i hn
      simp only [List.mem_singleton] at h
      subst h
      exact digitCU_hex hn
    · rcases List.mem_append.mp h with h1 | h2
      · exact ih _ c h1
      · simp only [List.mem_singleton] at h2
        subst h2
        exact digitCU_hex (Nat.mod_lt _ (by norm_num))

/-- The decimal rendering is never empty. -/
theorem decimStr_ne_nil (n : Nat) : decimStr n ≠ [] := by
  simp only [decimStr, decimAux]
  split <;> simp

/-- The hexadecimal rendering is never empty. -/
theorem hexStr_ne_nil (n : Nat) : hexStr n ≠ [] := by
  simp only [hexStr, hexAux]
  split <;> simp

/-- C4 (amended): every storage key has the exact form decimal millisecond
timestamp, hyphen, lower-case hexadecimal salt, hyphen, sanitized name (both
numeric parts nonempty and drawn from the right digit alphabets), and the
salt is drawn from a space of ten to the ninth values — at least 29 bits of
entropy, but short of the claimed 30 (see the counterexample). -/
theorem C4_storage_key_form (o : Option JStr) (now rand : Nat) :
    storageFilename o now rand =
      decimStr now ++ [hyphen] ++ hexStr rand ++ [hyphen] ++ safeNameOf o ∧
    decimStr now ≠ [] ∧ hexStr rand ≠ [] ∧
    (∀ c ∈ decimStr now, 48 ≤ c ∧ c ≤ 57) ∧
    (∀ c ∈ hexStr rand, (48 ≤ c ∧ c ≤ 57) ∨ (97 ≤ c ∧ c ≤ 102)) ∧
    2 ^ 29 ≤ SALT_SPACE :=
  ⟨rfl, decimStr_ne_nil now, hexStr_ne_nil rand,
   fun c h => decimAux_digits (now + 1) now c h,
   fun c h => hexAux_digits (rand + 1) rand c h,
   by decide⟩

/-- Witness for C4: the storage key for a missing original name at clock 0
and salt 255 is `0-ff-file.pdf`, and the entropy lower bound holds. -/
theorem C4_storage_key_form_w :
    storageFilename none 0 255 =
      decimStr 0 ++ [hyphen] ++ hexStr 255 ++ [hyphen] ++ safeNameOf none ∧
    decimStr 0 ≠ [] ∧ 2 ^ 29 ≤ SALT_SPACE :=
  ⟨(C4_storage_key_form none 0 255).1, (C4_storage_key_form none 0 255).2.1,
   (C4_storage_key_form none 0 255).2.2.2.2.2⟩

/-- C4 counterexample: the salt space has ten to the ninth values, strictly
fewer than 2 to the 30 — the salt carries fewer than 30 bits of entropy,
refuting the at-least-30-bits claim. -/
theorem C4_cex_salt_entropy : SALT_SPACE < 2 ^ 30 := by decide

/-! ### Upload-pipeline lemmas -/

/-- Reading back the blob just written. -/
theorem findBlob_cons_self (k : JStr) (v : List Nat) (bs : List (JStr × List Nat)) :
    findBlob ((k, v) :: bs) k = some v := by
  simp [findBlob]

/-- Unlinking the blob just written. -/
theorem removeBlob_cons_self (k : JStr) (v : List Nat) (bs : List (JStr × List Nat)) :
    removeBlob ((k, v) :: bs) k = removeBlob bs k := by
  simp [removeBlob]

/-- The try/catch around unlink never touches the documents table. -/
theorem tryUnlink_docs (ok : Bool) (st : Store) (k : JStr) :
    (tryUnlink ok st k).docs = st.docs := by
  cases ok <;> simp [tryUnlink]

/-! ### Claim C1 -/

/-- C1: an upload whose stored blob fails PDF verification — wrong first four
bytes, an unreadable blob, or fewer than four bytes (all folded into
`isRealPDF` returning false) — yields the structured 400 NotAPdf response
rather than an exception, attempts no insert, creates no Document row, and,
when the synchronous unlink succeeds (its failure is caught and only logged),
removes the tentative blob. -/
theorem C1_verification_failure_cleanup (env : UpEnv) (f : UpFile) (st : Store)
    (hm : f.mimetype = pdfMime)
    (hs : f.content.length ≤ MAX_FILE_SIZE)
    (hv : isRealPDF (if env.readOk then some f.content else none) = false) :
    (uploadRequest env (some f) st).resp = UpResp.notAPdf ∧
    UpResp.notAPdf.status = 400 ∧
    (uploadRequest env (some f) st).store.docs = st.docs ∧
    (uploadRequest env (some f) st).attempts = [] ∧
    (env.unlinkOk = true →
      (uploadRequest env (some f) st).store.blobs =
        removeBlob st.blobs
          (uploadsDirLit ++ storageFilename f.originalname env.now env.rand)) := by
  have hread :
      (if env.readOk then
        findBlob ((uploadsDirLit ++ storageFilename f.originalname env.now env.rand,
                   f.content) :: st.blobs)
          (uploadsDirLit ++ storageFilename f.originalname env.now env.rand)
       else none) = (if env.readOk then some f.content else none) := by
    cases env.readOk <;> simp [findBlob_cons_self]
  simp only [uploadRequest]
  rw [if_pos hm, if_pos hs]
  rw [hread, hv, if_neg (by decide : ¬ false = true)]
  refine ⟨rfl, rfl, ?_, rfl, ?_⟩
  · exact tryUnlink_docs _ _ _
  · intro hu
    show (tryUnlink env.unlinkOk _ _).blobs = _
    rw [hu]
    simp only [tryUnlink, if_pos rfl]
    exact removeBlob_cons_self _ _ _

/-- Shared all-succeeding upload environment for the concrete witnesses. -/
def envOK : UpEnv := ⟨0, 0, true, true, .ok, .ok⟩

/-- Concrete non-PDF upload (content `hi`). -/
def fBad : UpFile := ⟨some [120], pdfMime, [104, 105]⟩

/-- Concrete empty store. -/
def stEmpty : Store := ⟨[], [], 1⟩

/-- Witness for C1 at a concrete upload whose content is not a PDF. -/
theorem C1_verification_failure_cleanup_w :
    (uploadRequest envOK (some fBad) stEmpty).resp = UpResp.notAPdf ∧
    (uploadRequest envOK (some fBad) stEmpty).store.docs = stEmpty.docs ∧
    (uploadRequest envOK (some fBad) stEmpty).store.blobs =
      removeBlob stEmpty.blobs
        (uploadsDirLit ++ storageFilename fBad.originalname envOK.now envOK.rand) := by
  have h := C1_verification_failure_cleanup envOK fBad stEmpty rfl (by decide) (by decide)
  exact ⟨h.1, h.2.2.1, h.2.2.2.2 rfl⟩

/-! ### Claim C8 -/

/-- C8: any upload stream strictly larger than the ten-mebibyte cap is
rejected with the LIMIT_FILE_SIZE multer error, mapped to a 400 by the error
middleware, before any blob is written or verification runs: the state comes
back untouched (no blob, no row) and no insert is attempted, for every
environment (in particular independently of the verification outcome). -/
theorem C8_too_large_rejected (env : UpEnv) (f : UpFile) (st : Store)
    (hm : f.mimetype = pdfMime)
    (hs : MAX_FILE_SIZE < f.content.length) :
    uploadRequest env (some f) st = ⟨UpResp.tooLarge, st, []⟩ ∧
    UpResp.tooLarge.status = 400 := by
  constructor
  · simp only [uploadRequest]
    rw [if_pos hm, if_neg (by omega)]
  · rfl

/-- Concrete oversized upload: one byte past the cap. -/
def fBig : UpFile := ⟨some [120], pdfMime, List.replicate (MAX_FILE_SIZE + 1) 37⟩

/-- Witness for C8 at the concrete oversized upload. -/
theorem C8_too_large_rejected_w :
    MAX_FILE_SIZE < fBig.content.length ∧
    (uploadRequest envOK (some fBig) stEmpty).resp = UpResp.tooLarge := by
  have hlen : MAX_FILE_SIZE < fBig.content.length := by
    simp only [fBig, List.length_replicate]
    omega
  exact ⟨hlen, by rw [(C8_too_large_rejected envOK fBig stEmpty rfl hlen).1]⟩

/-! ### Claim C3 -/

/-- C3: once the blob is stored and verified, a first INSERT failing with the
missing original_filename column message is retried exactly once with the
reduced column set; if the retry succeeds the upload reports 201 with a row
carrying no display name, after exactly the attempts full-then-reduced.  A
first INSERT failing with any other message is not retried: exactly one
attempt is made, the just-written blob is deleted (best-effort; on unlink
success it is gone), no row is created, and a 500 record-store error is
surfaced. -/
theorem C3_schema_drift_retry (env : UpEnv) (f : UpFile) (st : Store) (m : JStr)
    (hm : f.mimetype = pdfMime)
    (hs : f.content.length ≤ MAX_FILE_SIZE)
    (hr : env.readOk = true)
    (hv : isRealPDF (some f.content) = true)
    (h1 : env.ins1 = InsOut.err m) :
    (containsSeg noColumnMsg m = true → env.ins2 = InsOut.ok →
      (uploadRequest env (some f) st).resp = UpResp.created st.nextId false ∧
      UpResp.status (UpResp.created st.nextId false) = 201 ∧
      (uploadRequest env (some f) st).attempts = [InsAttempt.full, InsAttempt.reduced] ∧
      (uploadRequest env (some f) st).store.docs =
        st.docs ++ [⟨st.nextId, storageFilename f.originalname env.now env.rand, none,
                     uploadsDirLit ++ storageFilename f.originalname env.now env.rand,
                     f.content.length, env.now⟩]) ∧
    (containsSeg noColumnMsg m = false →
      (uploadRequest env (some f) st).resp = UpResp.dbError m ∧
      UpResp.status (UpResp.dbError m) = 500 ∧
      (uploadRequest env (some f) st).attempts = [InsAttempt.full] ∧
      (uploadRequest env (some f) st).store.docs = st.docs ∧
      (env.unlinkOk = true →
        (uploadRequest env (some f) st).store.blobs =
          removeBlob st.blobs
            (uploadsDirLit ++ storageFilename f.originalname env.now env.rand))) := by
  simp only [uploadRequest]
  rw [if_pos hm, if_pos hs]
  rw [hr, if_pos rfl, findBlob_cons_self, hv, if_pos rfl, h1]
  dsimp only
  constructor
  · intro hc hi2
    rw [if_pos hc, hi2]
    exact ⟨rfl, rfl, rfl, rfl⟩
  · intro hc
    rw [if_neg (by rw [hc]; exact Bool.false_ne_true)]
    refine ⟨rfl, rfl, rfl, tryUnlink_docs _ _ _, ?_⟩
    intro hu
    show (tryUnlink env.unlinkOk _ _).blobs = _
    rw [hu]
    simp only [tryUnlink, if_pos rfl]
    exact removeBlob_cons_self _ _ _

/-- Upload environment whose first INSERT fails with the missing-column
message and whose retry succeeds. -/
def envDrift : UpEnv := ⟨0, 0, true, true, .err noColumnMsg, .ok⟩

/-- Concrete valid PDF upload named `x`. -/
def fPdf : UpFile := ⟨some [120], pdfMime, [37, 80, 68, 70, 49]⟩

/-- Witness for C3: with the missing-column error and a successful retry the
upload is created with exactly the two insert attempts. -/
theorem C3_schema_drift_retry_w :
    (uploadRequest envDrift (some fPdf) stEmpty).resp = UpResp.created 1 false ∧
    (uploadRequest envDrift (some fPdf) stEmpty).attempts =
      [InsAttempt.full, InsAttempt.reduced] := by
  have h := (C3_schema_drift_retry envDrift fPdf stEmpty noColumnMsg rfl (by decide) rfl
    (by decide) rfl).1 (by decide) rfl
  exact ⟨h.1, h.2.2.1⟩

/-! ### Claim C9 -/

/-- C9 (amended): on a fully successful upload the persisted display name is
the normalized (control-stripped, trimmed) client-supplied filename, not the
sanitized safe name used on disk: sanitization (illegal-character removal,
whitespace collapse, length cap, extension fixing, leading-dot strip) applies
only to the stored filename.  When the normalized name is empty, the salted
stored filename is recorded as the display name instead. -/
theorem C9_display_name_unsanitized (env : UpEnv) (f : UpFile) (st : Store)
    (hm : f.mimetype = pdfMime)
    (hs : f.content.length ≤ MAX_FILE_SIZE)
    (hr : env.readOk = true)
    (hv : isRealPDF (some f.content) = true)
    (h1 : env.ins1 = InsOut.ok) :
    (uploadRequest env (some f) st).resp = UpResp.created st.nextId true ∧
    (uploadRequest env (some f) st).store.docs =
      st.docs ++ [⟨st.nextId, storageFilename f.originalname env.now env.rand,
                   some (if normOrig f.originalname = []
                         then storageFilename f.originalname env.now env.rand
                         else normOrig f.originalname),
                   uploadsDirLit ++ storageFilename f.originalname env.now env.rand,
                   f.content.length, env.now⟩] := by
  simp only [uploadRequest]
  rw [if_pos hm, if_pos hs]
  rw [hr, if_pos rfl, findBlob_cons_self, hv, if_pos rfl, h1]
  exact ⟨rfl, rfl⟩

/-- Witness for C9 at the concrete upload named `x`. -/
theorem C9_display_name_unsanitized_w :
    (uploadRequest envOK (some fPdf) stEmpty).resp = UpResp.created 1 true :=
  (C9_display_name_unsanitized envOK fPdf stEmpty rfl (by decide) rfl (by decide) rfl).1

/-- C9 counterexample: uploading a valid PDF named `x` persists display name
`x` (unit 120), while the sanitized on-disk base name is `x.pdf` — the stored
display name differs from the sanitized name and fails the Sanitizer's output
guarantee of a `.pdf` suffix. -/
theorem C9_cex_unsanitized_display :
    (uploadRequest envOK (some fPdf) stEmpty).store.docs =
      [⟨1, storageFilename (some [120]) 0 0, some [120],
        uploadsDirLit ++ storageFilename (some [120]) 0 0, 5, 0⟩] ∧
    safeNameOf (some [120]) = [120, 46, 112, 100, 102] ∧
    ([120] : JStr) ≠ [120, 46, 112, 100, 102] ∧
    matchesSpecRegex [120] = false :=
  ⟨by decide, by decide, by decide, by decide⟩

/-! ### Claim C5 -/

/-- After filtering out every row with the given id, the lookup finds none. -/
theorem findDoc_filter_self (docs : List DocRow) (id : Nat) :
    findDoc (docs.filter (fun d => !(d.id == id))) id = none := by
  induction docs with
  | nil => rfl
  | cons x xs ih =>
    by_cases hx : (x.id == id) = true
    · rw [List.filter_cons_of_neg (by simp [hx])]
      exact ih
    · rw [List.filter_cons_of_pos (by simp [hx])]
      unfold findDoc
      rw [@List.find?_cons_of_neg DocRow (fun d => d.id == id) x
            (List.filter (fun d => !(d.id == id)) xs) hx]
      exact ih

/-- Result of a delete whose lookup finds no row. -/
theorem deleteRequest_notFound (env : DelEnv) (id : Nat) (st : Store)
    (hg : env.getErr = none) (h : findDoc st.docs id = none) :
    deleteRequest env id st = (DelResp.notFound, st) := by
  simp [deleteRequest, hg, h]

/-- Result of a delete whose lookup finds a row but whose row deletion
fails. -/
theorem deleteRequest_found_err (env : DelEnv) (id : Nat) (st : Store) (row : DocRow)
    (m2 : JStr) (hg : env.getErr = none) (e : findDoc st.docs id = some row)
    (hd : env.delErr = some m2) :
    (deleteRequest env id st).1 = DelResp.dbError m2 := by
  simp [deleteRequest, hg, e, hd]

/-- Result and table state of a delete whose lookup finds a row and whose row
deletion succeeds. -/
theorem deleteRequest_found (env : DelEnv) (id : Nat) (st : Store) (row : DocRow)
    (hg : env.getErr = none) (e : findDoc st.docs id = some row)
    (hd : env.delErr = none) :
    (deleteRequest env id st).1 = DelResp.deleted ∧
    (deleteRequest env id st).2.docs = st.docs.filter (fun d => !(d.id == id)) := by
  have hdocs : (if blobAt st row.filepath = true
                then tryUnlink env.unlinkOk st row.filepath
                else st).docs = st.docs := by
    split
    · exact tryUnlink_docs _ _ _
    · rfl
  constructor
  · simp [deleteRequest, hg, e, hd]
  · simp only [deleteRequest, hg, e, hd]
    rw [hdocs]

/-- C5: deletion by id returns 404 when the row is absent; an already-absent
blob is treated as success (no unlink is attempted, the blob store is
untouched); a failing blob unlink is only logged and the row is still
deleted; once the lookup has succeeded, only a failure of the row deletion
itself produces a 500; and deleting the same id twice yields success then
404 — the second call returns a structured response, never an exception. -/
theorem C5_delete_cases (env env2 : DelEnv) (id : Nat) (st : Store)
    (hg : env.getErr = none) :
    (findDoc st.docs id = none →
      deleteRequest env id st = (DelResp.notFound, st) ∧
      DelResp.notFound.status = 404) ∧
    (∀ row, findDoc st.docs id = some row → blobAt st row.filepath = false →
      env.delErr = none →
      (deleteRequest env id st).1 = DelResp.deleted ∧
      DelResp.deleted.status = 200 ∧
      (deleteRequest env id st).2.docs = st.docs.filter (fun d => !(d.id == id)) ∧
      (deleteRequest env id st).2.blobs = st.blobs) ∧
    (∀ row, findDoc st.docs id = some row → env.unlinkOk = false →
      env.delErr = none →
      (deleteRequest env id st).1 = DelResp.deleted ∧
      (deleteRequest env id st).2.docs = st.docs.filter (fun d => !(d.id == id)) ∧
      (deleteRequest env id st).2.blobs = st.blobs) ∧
    (∀ msg, (deleteRequest env id st).1 = DelResp.dbError msg → env.delErr = some msg) ∧
    (env.delErr = none → env2.getErr = none → ¬ findDoc st.docs id = none →
      (deleteRequest env id st).1 = DelResp.deleted ∧
      (deleteRequest env2 id (deleteRequest env id st).2).1 = DelResp.notFound) := by
  refine ⟨?_, ?_, ?_, ?_, ?_⟩
  · intro h
    exact ⟨deleteRequest_notFound env id st hg h, rfl⟩
  · intro row e hb hd
    refine ⟨(deleteRequest_found env id st row hg e hd).1, rfl,
            (deleteRequest_found env id st row hg e hd).2, ?_⟩
    simp only [deleteRequest, hg, e, hd]
    rw [if_neg (by rw [hb]; exact Bool.false_ne_true)]
  · intro row e hu hd
    refine ⟨(deleteRequest_found env id st row hg e hd).1,
            (deleteRequest_found env id st row hg e hd).2, ?_⟩
    simp only [deleteRequest, hg, e, hd]
    have hblobs : (if blobAt st row.filepath then tryUnlink env.unlinkOk st row.filepath
                   else st).blobs = st.blobs := by
      split
      · rw [hu]
        rfl
      · rfl
    rw [hblobs]
  · intro msg h
    rcases e : findDoc st.docs id with _ | row
    · rw [deleteRequest_notFound env id st hg e] at h
      simp at h
    · rcases hd : env.delErr with _ | m2
      · rw [(deleteRequest_found env id st row hg e hd).1] at h
        simp at h
      · rw [deleteRequest_found_err env id st row m2 hg e hd] at h
        injection h with h2
        subst h2
        rfl
  · intro hd hg2 hne
    rcases e : findDoc st.docs id with _ | row
    · exact absurd e hne
    refine ⟨(deleteRequest_found env id st row hg e hd).1, ?_⟩
    have hd2 : findDoc (deleteRequest env id st).2.docs id = none := by
      rw [(deleteRequest_found env id st row hg e hd).2]
      exact findDoc_filter_self _ _
    rw [deleteRequest_notFound env2 id _ hg2 hd2]

/-- All-succeeding delete environment. -/
def envDel : DelEnv := ⟨none, true, none⟩

/-- Concrete row and store with one document and its blob. -/
def rowW : DocRow := ⟨1, [97], none, [117], 1, 0⟩

/-- Store holding exactly `rowW` and its blob. -/
def stOne : Store := ⟨[rowW], [([117], [37])], 2⟩

/-- Witness for C5: deleting id 1 from the one-document store succeeds, and
deleting it again returns 404. -/
theorem C5_delete_cases_w :
    (deleteRequest envDel 1 stOne).1 = DelResp.deleted ∧
    (deleteRequest envDel 1 (deleteRequest envDel 1 stOne).2).1 = DelResp.notFound :=
  (C5_delete_cases envDel envDel 1 stOne rfl).2.2.2.2 rfl rfl (by decide)

/-! ### Claim C6 -/

/-- C6: a download by id returns 404 DocumentNotFound when no row exists; 404
BlobMissing when the row exists but no blob is at its location, with the
state returned untouched (nothing is repaired); otherwise the blob at the
row's location is streamed under the display name, which falls back to the
stored filename when no display name was recorded. -/
theorem C6_download_cases (env : GetEnv) (id : Nat) (st : Store)
    (hg : env.getErr = none) :
    (findDoc st.docs id = none →
      downloadRequest env id st = (GetResp.notFound, st) ∧
      GetResp.notFound.status = 404) ∧
    (∀ row, findDoc st.docs id = some row → blobAt st row.filepath = false →
      downloadRequest env id st = (GetResp.fileMissing, st) ∧
      GetResp.fileMissing.status = 404) ∧
    (∀ row, findDoc st.docs id = some row → blobAt st row.filepath = true →
      downloadRequest env id st =
        (GetResp.downloadFile row.filepath (downloadName row), st)) ∧
    (∀ row, row.original_filename = none → downloadName row = row.filename) := by
  refine ⟨?_, ?_, ?_, ?_⟩
  · intro h
    exact ⟨by simp [downloadRequest, hg, h], rfl⟩
  · intro row e hb
    refine ⟨?_, rfl⟩
    simp only [downloadRequest, hg, e]
    rw [if_neg (by rw [hb]; exact Bool.false_ne_true)]
  · intro row e hb
    simp only [downloadRequest, hg, e]
    rw [if_pos hb]
  · intro row h
    simp [downloadName, h]

/-- Witness for C6: in the one-document store, downloading id 1 streams the
blob under the stored filename (no display name was recorded) and id 2 is
not found. -/
theorem C6_download_cases_w :
    downloadRequest ⟨none⟩ 1 stOne = (GetResp.downloadFile [117] [97], stOne) ∧
    downloadRequest ⟨none⟩ 2 stOne = (GetResp.notFound, stOne) := by
  refine ⟨?_, ((C6_download_cases ⟨none⟩ 2 stOne rfl).1 (by decide)).1⟩
  have h := (C6_download_cases ⟨none⟩ 1 stOne rfl).2.2.1 rowW (by decide) (by decide)
  rw [h]
  decide

/-! ### Claim C10 -/

/-- C10: the download-name fallback of server.js line 228 triggers for every
falsy recorded display name — null and the empty string alike — serving the
row under its stored filename, and the served name is nonempty whenever the
stored filename is. -/
theorem C10_falsy_display_fallback (row : DocRow) :
    (row.original_filename = none → downloadName row = row.filename) ∧
    (row.original_filename = some [] → downloadName row = row.filename) ∧
    (¬ row.filename = [] → ¬ downloadName row = []) := by
  refine ⟨?_, ?_, ?_⟩
  · intro h
    simp [downloadName, h]
  · intro h
    simp [downloadName, h]
  · intro hf
    rcases e : row.original_filename with _ | s
    · simp only [downloadName, e]
      exact hf
    · simp only [downloadName, e]
      split
      · exact hf
      · rename_i hne
        exact hne

/-- Concrete row whose recorded display name is the empty string. -/
def rowEmptyName : DocRow := ⟨3, [97], some [], [117], 1, 0⟩

/-- Witness for C10 at the empty-display-name row. -/
theorem C10_falsy_display_fallback_w :
    downloadName rowEmptyName = rowEmptyName.filename ∧
    ¬ downloadName rowEmptyName = [] :=
  ⟨(C10_falsy_display_fallback rowEmptyName).2.1 rfl,
   (C10_falsy_display_fallback rowEmptyName).2.2 (by decide)⟩

/-! ### Claim C7 -/

/-- The ordering the specification claims: `created_at` descending with ties
broken by `id` descending. -/
def claimOrder (a b : DocRow) : Prop :=
  b.created_at < a.created_at ∨ (b.created_at = a.created_at ∧ b.id < a.id)

/-- The ordering the code guarantees under the stable engine-sort model:
`created_at` descending with ties in insertion order, that is `id`
ascending. -/
def stableOrder (a b : DocRow) : Prop :=
  b.created_at < a.created_at ∨ (b.created_at = a.created_at ∧ a.id < b.id)

/-- Ids strictly increase along the table, as autoincrement insertion
guarantees. -/
def idsAscending (docs : List DocRow) : Prop :=
  docs.Pairwise (fun a b => a.id < b.id)

/-- Stable insertion permutes. -/
theorem insDesc_perm (x : DocRow) (l : List DocRow) : (insDesc x l).Perm (x :: l) := by
  induction l with
  | nil => exact List.Perm.refl _
  | cons y ys ih =>
    unfold insDesc
    split
    · exact List.Perm.refl _
    · exact (ih.cons y).trans (List.Perm.swap x y ys)

/-- The engine sort model permutes the table. -/
theorem sortByCreatedDesc_perm (l : List DocRow) : (sortByCreatedDesc l).Perm l := by
  induction l with
  | nil => exact List.Perm.refl _
  | cons x xs ih => exact (insDesc_perm x _).trans (ih.cons x)

/-- Stable insertion of an earliest-id row into a sorted list keeps the list
sorted for the combined order. -/
theorem insDesc_pairwise {x : DocRow} {l : List DocRow}
    (hl : l.Pairwise stableOrder) (hx : ∀ y ∈ l, x.id < y.id) :
    (insDesc x l).Pairwise stableOrder := by
  induction l with
  | nil => exact List.pairwise_singleton _ _
  | cons y ys ih =>
    rw [List.pairwise_cons] at hl
    obtain ⟨hy, hys⟩ := hl
    unfold insDesc
    split
    · rename_i hle
      rw [List.pairwise_cons]
      refine ⟨?_, List.pairwise_cons.mpr ⟨hy, hys⟩⟩
      intro z hz
      rcases List.mem_cons.mp hz with rfl | hz2
      · rcases Nat.lt_or_ge z.created_at x.created_at with h | h
        · exact .inl h
        · exact .inr ⟨Nat.le_antisymm hle h, hx z (List.mem_cons_self _ _)⟩
      · rcases hy z hz2 with h | ⟨heq, _⟩
        · exact .inl (Nat.lt_of_lt_of_le h hle)
        · rcases Nat.lt_or_ge z.created_at x.created_at with h2 | h2
          · exact .inl h2
          · exact .inr ⟨Nat.le_antisymm (heq ▸ hle) h2,
                        hx z (List.mem_cons_of_mem _ hz2)⟩
    · rename_i hgt
      push_neg at hgt
      rw [List.pairwise_cons]
      constructor
      · intro z hz
        rcases List.mem_cons.mp ((insDesc_perm x ys).mem_iff.mp hz) with rfl | hz3
        · exact .inl hgt
        · exact hy z hz3
      · exact ih hys (fun z hz => hx z (List.mem_cons_of_mem _ hz))

/-- The engine sort model sorts an id-ascending table for the combined order. -/
theorem sortByCreatedDesc_pairwise {l : List DocRow} (h : idsAscending l) :
    (sortByCreatedDesc l).Pairwise stableOrder := by
  induction l with
  | nil => exact List.Pairwise.nil
  | cons x xs ih =>
    rw [idsAscending, List.pairwise_cons] at h
    obtain ⟨hx, hxs⟩ := h
    exact insDesc_pairwise (ih hxs)
      (fun y hy => hx y ((sortByCreatedDesc_perm xs).subset hy))

/-- C7 (amended): the listing is a permutation of the documents table sorted
by `created_at` descending; rows with equal `created_at` appear in insertion
order (ascending id) under the stable engine-sort model — the SQL statement
names no secondary sort key, so the claimed id-descending tie-break does not
hold. -/
theorem C7_query_order (st : Store) (h : idsAscending st.docs) :
    (queryDocs st).Perm st.docs ∧ (queryDocs st).Pairwise stableOrder :=
  ⟨sortByCreatedDesc_perm _, sortByCreatedDesc_pairwise h⟩

/-- Two rows sharing a timestamp, inserted in id order. -/
def docT1 : DocRow := ⟨1, [97], none, [97], 1, 5⟩

/-- Second row with the same timestamp. -/
def docT2 : DocRow := ⟨2, [98], none, [98], 1, 5⟩

/-- Store holding the two tied rows in insertion order. -/
def stPair : Store := ⟨[docT1, docT2], [], 3⟩

/-- Witness for C7 at the concrete two-row store. -/
theorem C7_query_order_w :
    idsAscending stPair.docs ∧ (queryDocs stPair).Perm stPair.docs ∧
    (queryDocs stPair).Pairwise stableOrder := by
  have h : idsAscending stPair.docs := by
    unfold idsAscending
    decide
  exact ⟨h, (C7_query_order stPair h).1, (C7_query_order stPair h).2⟩

/-- C7 counterexample: two rows with equal `created_at` inserted in id order
1 then 2 are listed as id 1 before id 2 — ties come out id-ascending, not
id-descending as claimed. -/
theorem C7_cex_tie_order :
    queryDocs stPair = [docT1, docT2] ∧ ¬ claimOrder docT1 docT2 :=
  ⟨by decide, by unfold claimOrder; decide⟩

example : safeNameOf (some [46, 112, 100, 102]) = [112, 100, 102] := by decide

example : safeNameOf (some [120]) = [120, 46, 112, 100, 102] := by decide

example : safeNameOf none = [102, 105, 108, 101, 46, 112, 100, 102] := by decide

example : safeNameOf (some [46, 46, 80, 68, 70]) = [80, 68, 70] := by decide

example : storageFilename none 0 255 =
    [48, 45, 102, 102, 45, 102, 105, 108, 101, 46, 112, 100, 102] := by decide

end Uploader
